import Mathlib

/-!
Verification of the `lexmachina-agent` repository
(`src/lexmachina_agent/agent_executor.py`).

The Python module is embedded shallowly:

* JSON values are the inductive `Json`; Python dicts are association lists
  (`Dict`) with first-match lookup and insertion-order-preserving update,
  matching CPython dict semantics for duplicate-free key lists.
* The network is an oracle (`Network`, `TokenNet`): each HTTP GET/POST is a
  function from its request data to an outcome — a 2xx JSON body, an
  `httpx.HTTPStatusError` (the only kind the code catches at the two fetch
  call sites), or any other raised exception (which propagates).
* `asyncio.gather` is modelled with an explicit completion schedule `sched`
  (the order in which the concurrent fetches finish); its positional result
  list and first-completed-exception semantics are `gather`.
* Raised Python exceptions are `Except AgentError`; the exception taxonomy of
  the module (`ConfigurationError` and friends, `NotImplementedError`,
  `httpx.HTTPError`, `KeyError`, `TypeError`) is `AgentError`.
-/

namespace LexMachina

/-- JSON values, as returned by `response.json()`. -/
inductive Json where
  | null
  | bool (b : Bool)
  | num (n : Int)
  | str (s : String)
  | arr (elems : List Json)
  | obj (fields : List (String × Json))
deriving Repr

/-- A Python dict with string keys, as the `typing.cast(dict, ...)` calls
assert for every JSON body the module consumes. -/
abbrev Dict := List (String × Json)

/-- Python truthiness (`bool(v)`) of a JSON value: `None`, `False`, `0`,
`""`, `[]` and `{}` are falsy. -/
def Json.truthy : Json → Bool
  | .null => false
  | .bool b => b
  | .num n => n != 0
  | .str s => !s.isEmpty
  | .arr elems => !elems.isEmpty
  | .obj fields => !fields.isEmpty

/-- `k in d` for a Python dict. -/
def dictHasKey : Dict → String → Bool
  | [], _ => false
  | (k', _) :: rest, k => k' == k || dictHasKey rest k

/-- `d.get(k)` for a Python dict: first match, `None` (here `none`) when
absent. -/
def dictGet : Dict → String → Option Json
  | [], _ => none
  | (k', v) :: rest, k => if k' == k then some v else dictGet rest k

/-- `d[k] = v` for a Python dict: replace in place when the key is present
(keeping its position), append otherwise. -/
def dictSet : Dict → String → Json → Dict
  | [], k, v => [(k, v)]
  | (k', v') :: rest, k, v =>
    if k' == k then (k, v) :: rest else (k', v') :: dictSet rest k v

/-- The keys of a dict, in order. -/
def dictKeys (d : Dict) : List String := d.map (fun p => p.1)

/-- Python exceptions raised (or caught) by the module. -/
inductive AgentError where
  /-- `MissingConfigurationError(missing_fields)`. -/
  | missingConfiguration (missing_fields : List String)
  /-- `RequiredConfigurationError(field_name)`. -/
  | requiredConfiguration (field_name : String)
  /-- Bare `ConfigurationError()`. -/
  | configurationError
  /-- `NotImplementedError(msg)` — a builtin, not a `ConfigurationError`. -/
  | notImplementedError (msg : String)
  /-- An `httpx.HTTPError` (transport or status) propagating out of the
  token exchange. -/
  | httpError (msg : String)
  /-- `KeyError(key)` from a missing dict key. -/
  | keyError (key : String)
  /-- `TypeError` from subscripting / iterating a non-dict / non-list. -/
  | typeError (msg : String)
  /-- Any other exception raised by an awaited HTTP call (transport error,
  cancellation, decode error, ...) — not caught by the module. -/
  | other (msg : String)
deriving Repr, DecidableEq

/-- `str(e)` / the single `args` entry of each exception, as the class
definitions at the top of the module build it. -/
def AgentError.message : AgentError → String
  | .missingConfiguration fs => "Missing configuration values: " ++ String.intercalate ", " fs
  | .requiredConfiguration f => "Missing required configuration value: " ++ f
  | .configurationError => "Invalid configuration"
  | .notImplementedError m => m
  | .httpError m => m
  | .keyError k => k
  | .typeError m => m
  | .other m => m

/-- `isinstance(e, ConfigurationError)`: which exception kinds belong to the
`ConfigurationError` hierarchy of the module. -/
def AgentError.isConfigurationError : AgentError → Bool
  | .missingConfiguration _ => true
  | .requiredConfiguration _ => true
  | .configurationError => true
  | _ => false

/-- Outcome of one awaited `self._client.get(...)` call, as decided by the
network oracle: a 2xx response with a JSON dict body (the code casts the
body to `dict`), an `httpx.HTTPStatusError` raised by `raise_for_status`
with `str(e) = msg`, or any other exception. -/
inductive FetchResult where
  | ok (body : Dict)
  | statusError (msg : String)
  | raise (e : AgentError)

/-- The network oracle for the two GET endpoints of the agent.
`suggestResponse q` is the outcome of `GET /search/ai_suggested?q=q`;
`descResponse u` is the outcome of `GET u` (the oracle is keyed by the raw
JSON value stored under `description_url`, since the code passes it to
`httpx` unchecked). -/
structure Network where
  suggestResponse : String → FetchResult
  descResponse : Json → FetchResult

/-- Python `repr()` of a JSON value (string escaping elided; no claim
depends on it). -/
def Json.pyRepr : Json → String
  | .null => "None"
  | .bool true => "True"
  | .bool false => "False"
  | .num n => toString n
  | .str s => "\x27" ++ s ++ "\x27"
  | .arr elems =>
    "[" ++ String.intercalate ", " (elems.attach.map (fun e => e.1.pyRepr)) ++ "]"
  | .obj fields =>
    "\x7b" ++ String.intercalate ", "
      (fields.attach.map (fun p => "\x27" ++ p.1.1 ++ "\x27: " ++ p.1.2.pyRepr))
      ++ "\x7d"
decreasing_by
  · have h := List.sizeOf_lt_of_mem e.2
    simp only [Json.arr.sizeOf_spec]
    omega
  · have h := List.sizeOf_lt_of_mem p.2
    have h2 : sizeOf p.1.2 < sizeOf p.1 := by
      obtain ⟨⟨k, v⟩, hp⟩ := p
      simp
    simp only [Json.obj.sizeOf_spec]
    omega

/-- Python `str()` of a JSON value, as an f-string interpolation applies it. -/
def Json.pyStr : Json → String
  | .str s => s
  | v => v.pyRepr

/-! ## Configuration (`APIAgentConfiguration` and the error classes) -/

/-- The process environment, restricted to the variables
`APIAgentConfiguration.__init__` reads (`os.environ.get` returns `None`
for an unset variable). -/
structure Env where
  api_base_url : Option String
  api_token : Option String
  client_id : Option String
  client_secret : Option String
  delegation_url : Option String

/-- The default used when `API_BASE_URL` is unset. -/
def defaultBaseUrl : String := "https://law-api-poc.stage.lexmachina.com"

/-- The fields `APIAgentConfiguration.__init__` stores on `self`. -/
structure APIAgentConfiguration where
  api_base_url : String
  token : Option String
  client_id : Option String
  client_secret : Option String
  delegation_url : Option String

/-- Python truthiness of an optional string (`if self.token:` etc.):
`None` and `""` are falsy. -/
def truthyS : Option String → Bool
  | none => false
  | some s => !s.isEmpty

/-- `APIAgentConfiguration.__init__`: load the environment, reject the
all-`None` and half-pair configurations, store the rest. -/
def APIAgentConfiguration.init (env : Env) : Except AgentError APIAgentConfiguration :=
  let api_base_url := env.api_base_url.getD defaultBaseUrl
  let token := env.api_token
  let client_id := env.client_id
  let client_secret := env.client_secret
  let delegation_url := env.delegation_url
  if token.isNone && client_id.isNone && client_secret.isNone && delegation_url.isNone then
    .error (.missingConfiguration ["API_TOKEN", "CLIENT_ID", "CLIENT_SECRET", "DELEGATION_URL"])
  else if client_id.isSome && client_secret.isNone then
    .error (.requiredConfiguration "CLIENT_SECRET")
  else if client_secret.isSome && client_id.isNone then
    .error (.requiredConfiguration "CLIENT_ID")
  else
    .ok { api_base_url, token, client_id, client_secret, delegation_url }

/-- The form body of the OAuth2 token request (`data=` in `httpx.post`). -/
structure TokenForm where
  grant_type : String
  client_id : String
  client_secret : String
deriving DecidableEq

/-- Outcome of the synchronous `httpx.post` token exchange, as decided by
the oracle: a response whose `raise_for_status` passes and whose body is a
JSON dict, or an `httpx.HTTPError` (status or transport) with `str(e) = msg`.
-/
inductive TokenFetchResult where
  | ok (body : Dict)
  | httpError (msg : String)

/-- The network oracle for `POST {base_url}/api/token`. -/
structure TokenNet where
  post : String → TokenForm → TokenFetchResult

/-- The state `LexMachinaAPIAgent.__init__` builds: the base URL and the
headers of the `httpx.AsyncClient`. -/
structure LexMachinaAPIAgent where
  api_base_url : String
  headers : List (String × String)
deriving DecidableEq

/-- `LexMachinaAPIAgent.__init__(api_base_url, token)`. -/
def LexMachinaAPIAgent.init (api_base_url : String) (token : String) : LexMachinaAPIAgent :=
  { api_base_url,
    headers := [("Authorization", "Bearer " ++ token), ("Accept", "application/json")] }

/-- `APIAgentConfiguration.build_agent`: token first, then
client-credentials (one POST to `{base_url}/api/token`), then delegation
(always `NotImplementedError`), then the bare `ConfigurationError` of the
branch commented `This should not happen`. -/
def APIAgentConfiguration.build_agent (cfg : APIAgentConfiguration) (tnet : TokenNet) :
    Except AgentError LexMachinaAPIAgent :=
  if truthyS cfg.token then
    .ok (LexMachinaAPIAgent.init cfg.api_base_url (cfg.token.getD ""))
  else if truthyS cfg.client_id && truthyS cfg.client_secret then
    let data : TokenForm :=
      { grant_type := "client_credentials",
        client_id := cfg.client_id.getD "",
        client_secret := cfg.client_secret.getD "" }
    let token_url := cfg.api_base_url ++ "/api/token"
    match tnet.post token_url data with
    | .httpError msg => .error (.httpError msg)
    | .ok body =>
      let access_token := (dictGet body "access_token").getD Json.null
      if !access_token.truthy then
        .error .configurationError
      else
        .ok (LexMachinaAPIAgent.init cfg.api_base_url access_token.pyStr)
  else if truthyS cfg.delegation_url then
    .error (.notImplementedError "Delegation URL authentication not implemented yet.")
  else
    .error .configurationError

/-- Credential resolution through the public interface: construct the
configuration from the environment, then build the agent. -/
def resolve (env : Env) (tnet : TokenNet) : Except AgentError LexMachinaAPIAgent :=
  (APIAgentConfiguration.init env).bind (fun cfg => cfg.build_agent tnet)

/-! ## Query orchestrator (`LexMachinaAPIAgent` methods) -/

/-- `get_suggested_searches`: `GET /search/ai_suggested?q=query`, catching
only `httpx.HTTPStatusError` and converting it to `{"error": str(e)}`;
everything else propagates. -/
def get_suggested_searches (net : Network) (query : String) : Except AgentError Dict :=
  match net.suggestResponse query with
  | .ok body => .ok body
  | .statusError msg => .ok [("error", Json.str msg)]
  | .raise e => .error e

/-- `get_search_description`: `GET description_url`, catching only
`httpx.HTTPStatusError` and converting it to `{"error": str(e)}`;
everything else propagates. -/
def get_search_description (net : Network) (description_url : Json) : Except AgentError Dict :=
  match net.descResponse description_url with
  | .ok body => .ok body
  | .statusError msg => .ok [("error", Json.str msg)]
  | .raise e => .error e

/-- The task-creation loop of `process_query` step 2: for each suggestion,
evaluate `suggestion["description_url"]` eagerly (a non-dict suggestion
raises `TypeError`, a dict without the key raises `KeyError`, sequentially,
before any fetch is awaited) and keep the fields of the suggestion together with
the extracted URL. -/
def makeTasks : List Json → Except AgentError (List (Dict × Json))
  | [] => .ok []
  | s :: rest =>
    match s with
    | .obj fields =>
      match dictGet fields "description_url" with
      | some u =>
        match makeTasks rest with
        | .ok ts => .ok ((fields, u) :: ts)
        | .error e => .error e
      | none => .error (.keyError "description_url")
    | _ => .error (.typeError "suggestion is not subscriptable by a string key")

/-- The first exception among the task outcomes in completion order
(`sched` lists task indices in the order the fetches finish). -/
def firstScheduledError (outcomes : List (Except AgentError Dict)) (sched : List Nat) :
    Option AgentError :=
  sched.findSome? (fun i =>
    match outcomes.getD i (.ok []) with
    | .error e => some e
    | .ok _ => none)

/-- Collect the task outcomes positionally (all are successes whenever the
gather call returns at all). -/
def collectResults : List (Except AgentError Dict) → Except AgentError (List Dict)
  | [] => .ok []
  | .error e :: _ => .error e
  | .ok d :: rest =>
    match collectResults rest with
    | .ok ds => .ok (d :: ds)
    | .error e => .error e

/-- `asyncio.gather(*tasks)` with `return_exceptions=False`: if some task
raises, the gather call raises the exception of the task that failed first
in completion order; otherwise it returns the results positionally, indexed
by task, not by completion time. -/
def gather (outcomes : List (Except AgentError Dict)) (sched : List Nat) :
    Except AgentError (List Dict) :=
  match firstScheduledError outcomes sched with
  | some e => .error e
  | none => collectResults outcomes

/-- The enrichment loop of `process_query` step 4:
`for suggestion, description_data in zip(suggestions, descriptions)`,
setting `suggestion["enriched_description"] = description_data` in place
(zip truncates at the shorter list; suggestions beyond it stay untouched).
-/
def enrichZip : List (Dict × Json) → List Dict → List Json
  | (fields, _) :: ts, d :: ds =>
    Json.obj (dictSet fields "enriched_description" (Json.obj d)) :: enrichZip ts ds
  | ts, [] => ts.map (fun t => Json.obj t.1)
  | [], _ :: _ => []

/-- `process_query`: stage 1 fetch, the gate, the eager task-creation loop,
the concurrent gather (with completion order `sched`), the positional
in-place merge, and the return of the stage-1 envelope. -/
def process_query (net : Network) (sched : List Nat) (query : String) :
    Except AgentError Dict :=
  match get_suggested_searches net query with
  | .error e => .error e
  | .ok suggestions_response =>
    if dictHasKey suggestions_response "error"
        || !((dictGet suggestions_response "result").getD Json.null).truthy then
      .ok [("error", Json.str "Failed to get initial suggestions."),
           ("details", Json.obj suggestions_response)]
    else
      match dictGet suggestions_response "result" with
      | none => .error (.keyError "result")
      | some (Json.arr suggestions) =>
        match makeTasks suggestions with
        | .error e => .error e
        | .ok tasks =>
          match gather (tasks.map (fun t => get_search_description net t.2)) sched with
          | .error e => .error e
          | .ok descriptions =>
            .ok (dictSet suggestions_response "result"
                  (Json.arr (enrichZip tasks descriptions)))
      | some _ => .error (.typeError "iterating a non-list result")

/-- A fetch completes (returns to the caller) iff it does not raise: a 2xx
body or a caught-and-converted `HTTPStatusError`. -/
def FetchResult.completes : FetchResult → Bool
  | .raise _ => false
  | _ => true

/-- The dict a completing fetch hands back: the body on 2xx, the
`{"error": str(e)}` conversion on a status error. Only meaningful for
completing fetches (the `raise` branch never reaches the caller). -/
def FetchResult.payload : FetchResult → Dict
  | .ok body => body
  | .statusError msg => [("error", Json.str msg)]
  | .raise _ => []

/-- What suggestion `i` looks like after enrichment, in terms of its task
entry `t` (its fields and its `description_url` value): its own fields with
`enriched_description` set to the payload fetched from its own URL. -/
def enrichedSuggestion (net : Network) (t : Dict × Json) : Json :=
  Json.obj (dictSet t.1 "enriched_description" (Json.obj (net.descResponse t.2).payload))

/-! ## Protocol-layer executor (`LexmachinaAgentExecutor.execute`) -/

/-- The request context fields `execute` reads (`message` is an opaque
protocol payload; `user_input` is what `context.get_user_input()` yields).
-/
structure RequestContext where
  task_id : Option String
  context_id : Option String
  message : Option String
  user_input : String

/-- Observable effects of one `execute` call, in program order. -/
inductive ExecEffect where
  /-- The `self.config.build_agent()` call. -/
  | build_agent
  /-- The synchronous token-exchange POST inside `build_agent`. -/
  | token_exchange
  /-- Raising `ServerError(InvalidParamsError(...))`. -/
  | invalid_params_error
  /-- The `api.process_query(query)` call. -/
  | process_query (query : String)
  /-- Enqueueing the completed task on the event queue. -/
  | enqueue_completed
deriving DecidableEq

/-- The network effects `build_agent` performs before returning or raising.
-/
def buildTraceEffects (cfg : APIAgentConfiguration) : List ExecEffect :=
  if truthyS cfg.token then []
  else if truthyS cfg.client_id && truthyS cfg.client_secret then [ExecEffect.token_exchange]
  else []

/-- The effect trace of `LexmachinaAgentExecutor.execute`: build the agent
first; only then check `task_id` / `context_id` / `message` for `None` and
raise `InvalidParamsError`; otherwise process the query and, if it returns,
enqueue the completed task. An exception anywhere cuts the trace short. -/
def executeEffects (cfg : APIAgentConfiguration) (tnet : TokenNet) (net : Network)
    (sched : List Nat) (ctx : RequestContext) : List ExecEffect :=
  ExecEffect.build_agent :: buildTraceEffects cfg ++
    match cfg.build_agent tnet with
    | .error _ => []
    | .ok _ =>
      if ctx.task_id.isNone || ctx.context_id.isNone || ctx.message.isNone then
        [ExecEffect.invalid_params_error]
      else
        ExecEffect.process_query ctx.user_input ::
          match process_query net sched ctx.user_input with
          | .error _ => []
          | .ok _ => [ExecEffect.enqueue_completed]

/-- `invalid_params_error` is signalled before any `build_agent` call in
the trace. -/
def invalidBeforeBuild : List ExecEffect → Bool
  | [] => false
  | ExecEffect.invalid_params_error :: _ => true
  | ExecEffect.build_agent :: _ => false
  | _ :: rest => invalidBeforeBuild rest

/-! ## Concrete instances used by the witnesses and counterexamples -/

/-- Stage 1 oracle for the C1 witness: a legitimately empty result list. -/
def netGateEmpty : Network :=
  { suggestResponse := fun _ => .ok [("result", Json.arr [])],
    descResponse := fun _ => .raise (.other "unused") }

/-- Stage 1 and description oracles for the C2 witness: two suggestions,
each with its own description. -/
def netEnrich : Network :=
  { suggestResponse := fun _ => .ok [("result", Json.arr
      [Json.obj [("title", Json.str "t1"), ("description_url", Json.str "/desc/1")],
       Json.obj [("description_url", Json.str "/desc/2")]]), ("meta", Json.str "m")],
    descResponse := fun u =>
      match u with
      | Json.str s => .ok [("url", Json.str s), ("text", Json.str ("Description for " ++ s))]
      | _ => .raise (.typeError "bad url") }

/-- The stage-1 dict `netEnrich` hands back. -/
def respEnrich : Dict :=
  [("result", Json.arr
      [Json.obj [("title", Json.str "t1"), ("description_url", Json.str "/desc/1")],
       Json.obj [("description_url", Json.str "/desc/2")]]), ("meta", Json.str "m")]

/-- The suggestion list inside `respEnrich`. -/
def ssEnrich : List Json :=
  [Json.obj [("title", Json.str "t1"), ("description_url", Json.str "/desc/1")],
   Json.obj [("description_url", Json.str "/desc/2")]]

/-- The extracted enrichment tasks for `ssEnrich`. -/
def tsEnrich : List (Dict × Json) :=
  [([("title", Json.str "t1"), ("description_url", Json.str "/desc/1")], Json.str "/desc/1"),
   ([("description_url", Json.str "/desc/2")], Json.str "/desc/2")]

/-- Oracles for the C3 witness: three suggestions; the second description
URL returns HTTP 404, the other two return real descriptions. -/
def netOne404 : Network :=
  { suggestResponse := fun _ => .ok [("result", Json.arr
      [Json.obj [("description_url", Json.str "/d1")],
       Json.obj [("description_url", Json.str "/d2")],
       Json.obj [("description_url", Json.str "/d3")]])],
    descResponse := fun u =>
      match u with
      | Json.str "/d2" => .statusError "Client error 404 for url /d2"
      | Json.str s => .ok [("text", Json.str ("ok " ++ s))]
      | _ => .raise (.typeError "bad url") }

/-- The extracted enrichment tasks for the `netOne404` suggestions. -/
def tsOne404 : List (Dict × Json) :=
  [([("description_url", Json.str "/d1")], Json.str "/d1"),
   ([("description_url", Json.str "/d2")], Json.str "/d2"),
   ([("description_url", Json.str "/d3")], Json.str "/d3")]

/-- C5 counterexample oracle: the first of two suggestions lacks
`description_url`; the second is well-formed; every description fetch would
succeed. -/
def netMissingUrl : Network :=
  { suggestResponse := fun _ => .ok [("result", Json.arr
      [Json.obj [("title", Json.str "no url here")],
       Json.obj [("description_url", Json.str "/d2")]])],
    descResponse := fun _ => .ok [("text", Json.str "ok")] }

/-- Amended-C5 witness oracle: the middle suggestion of three lacks
`description_url`. -/
def netOne404Missing : Network :=
  { suggestResponse := fun _ => .ok [("result", Json.arr
      [Json.obj [("description_url", Json.str "/d1")],
       Json.obj [("title", Json.str "no url")],
       Json.obj [("description_url", Json.str "/d3")]])],
    descResponse := fun _ => .ok [("text", Json.str "ok")] }

/-- A static-token configuration (as `build_agent` constructs from
`API_TOKEN=tok`). -/
def cfgToken : APIAgentConfiguration :=
  { api_base_url := defaultBaseUrl, token := some "tok",
    client_id := none, client_secret := none, delegation_url := none }

/-- A token-endpoint oracle that refuses every request. -/
def tnetDead : TokenNet := { post := fun _ _ => .httpError "connection refused" }

/-- A GET oracle for contexts whose request never reaches the network. -/
def netUnused : Network :=
  { suggestResponse := fun _ => .raise (.other "unused"),
    descResponse := fun _ => .raise (.other "unused") }

/-- A request context with `task_id` absent (the other fields present). -/
def ctxMissingTask : RequestContext :=
  { task_id := none, context_id := some "ctx456", message := some "msg",
    user_input := "patent cases" }

/-- Environment for the C7 witness: client credentials only. -/
def envOauth : Env :=
  { api_base_url := none, api_token := none, client_id := some "cid",
    client_secret := some "csecret", delegation_url := none }

/-- The exact form body the C7 witness token endpoint expects. -/
def formOauth : TokenForm :=
  { grant_type := "client_credentials", client_id := "cid", client_secret := "csecret" }

/-- Token-endpoint oracle for the C7 witness: answers only the exact
expected POST with `{access_token: "fetched_token"}`. -/
def tnetOauth : TokenNet :=
  { post := fun url form =>
      if url == defaultBaseUrl ++ "/api/token" && form == formOauth then TokenFetchResult.ok [("access_token", Json.str "fetched_token")]
      else TokenFetchResult.httpError "unexpected request" }

/-- Environment with `CLIENT_ID` set and `CLIENT_SECRET` unset. -/
def envIdOnly : Env :=
  { api_base_url := none, api_token := none, client_id := some "cid",
    client_secret := none, delegation_url := none }

/-- Environment with `CLIENT_SECRET` set and `CLIENT_ID` unset. -/
def envSecretOnly : Env :=
  { api_base_url := none, api_token := none, client_id := none,
    client_secret := some "csecret", delegation_url := none }

/-- Environment with only `DELEGATION_URL` set. -/
def envDelegation : Env :=
  { api_base_url := none, api_token := none, client_id := none,
    client_secret := none, delegation_url := some "https://delegate.example" }

/-- Environment with `API_TOKEN` set to the empty string and everything
else unset. -/
def envEmptyToken : Env :=
  { api_base_url := none, api_token := some "", client_id := none,
    client_secret := none, delegation_url := none }

/-- The configuration `APIAgentConfiguration.init envEmptyToken` builds. -/
def cfgEmptyToken : APIAgentConfiguration :=
  { api_base_url := defaultBaseUrl, token := some "",
    client_id := none, client_secret := none, delegation_url := none }

/-! ## Dict lemmas -/

theorem dictGet_dictSet_self (d : Dict) (k : String) (v : Json) :
    dictGet (dictSet d k v) k = some v := by
  induction d with
  | nil => simp [dictSet, dictGet]
  | cons p d ih =>
    obtain ⟨k', v'⟩ := p
    by_cases h : k' = k
    · simp [dictSet, dictGet, h]
    · simp [dictSet, dictGet, h, ih]

theorem dictGet_dictSet_ne (d : Dict) (k k₂ : String) (v : Json) (h : k₂ ≠ k) :
    dictGet (dictSet d k v) k₂ = dictGet d k₂ := by
  induction d with
  | nil => simp [dictSet, dictGet, Ne.symm h]
  | cons p d ih =>
    obtain ⟨k', v'⟩ := p
    by_cases hk : k' = k
    · subst hk
      simp [dictSet, dictGet, Ne.symm h]
    · simp [dictSet, dictGet, hk, ih]

theorem dictHasKey_dictSet_self (d : Dict) (k : String) (v : Json) :
    dictHasKey (dictSet d k v) k = true := by
  induction d with
  | nil => simp [dictSet, dictHasKey]
  | cons p d ih =>
    obtain ⟨k', v'⟩ := p
    by_cases h : k' = k
    · simp [dictSet, dictHasKey, h]
    · simp [dictSet, dictHasKey, h, ih]

theorem dictKeys_dictSet (d : Dict) (k : String) (v : Json) (h : dictHasKey d k = true) :
    dictKeys (dictSet d k v) = dictKeys d := by
  induction d with
  | nil => simp [dictHasKey] at h
  | cons p d ih =>
    obtain ⟨k', v'⟩ := p
    by_cases hk : k' = k
    · simp [dictSet, dictKeys, hk]
    · simp [dictHasKey, hk] at h
      have hkeys := ih h
      simp only [dictKeys, List.map_cons] at hkeys ⊢
      simp [dictSet, hk, hkeys]

theorem dictHasKey_of_dictGet_some (d : Dict) (k : String) (v : Json)
    (h : dictGet d k = some v) : dictHasKey d k = true := by
  induction d with
  | nil => simp [dictGet] at h
  | cons p d ih =>
    obtain ⟨k', v'⟩ := p
    by_cases hk : k' = k
    · simp [dictHasKey, hk]
    · simp [dictGet, hk] at h
      simp [dictHasKey, hk, ih h]

theorem string_isEmpty_false (s : String) (h : s ≠ "") : s.isEmpty = false := by
  cases he : s.isEmpty
  · rfl
  · exact absurd ((String.isEmpty_iff s).mp he) h

theorem truthyS_some_of_ne (s : String) (h : s ≠ "") : truthyS (some s) = true := by
  simp [truthyS, string_isEmpty_false s h]

theorem truthy_str_of_ne (s : String) (h : s ≠ "") : (Json.str s).truthy = true := by
  simp [Json.truthy, string_isEmpty_false s h]

theorem resolve_eq_build (env : Env) (cfg : APIAgentConfiguration) (tnet : TokenNet)
    (h : APIAgentConfiguration.init env = .ok cfg) :
    resolve env tnet = cfg.build_agent tnet := by
  unfold resolve
  rw [h]
  rfl

/-! ## Orchestrator lemmas -/

theorem get_search_description_of_completes (net : Network) (u : Json)
    (h : (net.descResponse u).completes = true) :
    get_search_description net u = .ok (net.descResponse u).payload := by
  unfold get_search_description FetchResult.payload
  cases hd : net.descResponse u with
  | ok body => rfl
  | statusError msg => rfl
  | raise e => rw [hd] at h; simp [FetchResult.completes] at h

theorem firstScheduledError_eq_none (outcomes : List (Except AgentError Dict))
    (sched : List Nat) (h : ∀ o ∈ outcomes, ∃ d, o = .ok d) :
    firstScheduledError outcomes sched = none := by
  induction sched with
  | nil => rfl
  | cons i rest ih =>
    have hi : ∃ d, outcomes.getD i (.ok []) = .ok d := by
      rcases ho : outcomes[i]? with _ | o
      · exact ⟨[], by simp [ho]⟩
      · obtain ⟨d, hd⟩ := h o (by rw [List.mem_iff_getElem?]; exact ⟨i, ho⟩)
        exact ⟨d, by simp [ho, hd]⟩
    obtain ⟨d, hd⟩ := hi
    unfold firstScheduledError at ih ⊢
    rw [List.findSome?_cons]
    rw [hd]
    exact ih

theorem collectResults_map_ok {α : Type} (ts : List α) (f : α → Dict) :
    collectResults (ts.map (fun t => .ok (f t))) = .ok (ts.map f) := by
  induction ts with
  | nil => rfl
  | cons t ts ih => simp [collectResults, ih]

theorem gather_map_ok {α : Type} (ts : List α) (f : α → Dict) (sched : List Nat) :
    gather (ts.map (fun t => .ok (f t))) sched = .ok (ts.map f) := by
  unfold gather
  rw [firstScheduledError_eq_none _ _ (by simp), collectResults_map_ok]

theorem enrichZip_map (ts : List (Dict × Json)) (f : Dict × Json → Dict) :
    enrichZip ts (ts.map f)
      = ts.map (fun t => Json.obj (dictSet t.1 "enriched_description" (Json.obj (f t)))) := by
  induction ts with
  | nil => rfl
  | cons t ts ih =>
    obtain ⟨fields, u⟩ := t
    simp [enrichZip, ih]

theorem makeTasks_ok_forall₂ :
    ∀ {ss : List Json} {ts : List (Dict × Json)}, makeTasks ss = .ok ts →
      List.Forall₂
        (fun s t => s = Json.obj t.1 ∧ dictGet t.1 "description_url" = some t.2) ss ts := by
  intro ss
  induction ss with
  | nil =>
    intro ts h
    unfold makeTasks at h
    cases h
    exact List.Forall₂.nil
  | cons s rest ih =>
    intro ts h
    unfold makeTasks at h
    cases s with
    | obj fields =>
      simp only at h
      cases hu : dictGet fields "description_url" with
      | none => rw [hu] at h; cases h
      | some u =>
        rw [hu] at h
        cases hrest : makeTasks rest with
        | error e => rw [hrest] at h; cases h
        | ok ts' =>
          rw [hrest] at h
          cases h
          exact List.Forall₂.cons ⟨rfl, hu⟩ (ih hrest)
    | null => cases h
    | bool b => cases h
    | num n => cases h
    | str s => cases h
    | arr elems => cases h

theorem makeTasks_missing_url (pre post : List Json) (bad : Dict)
    (hpre : ∀ s ∈ pre, ∃ fields u, s = Json.obj fields ∧ dictGet fields "description_url" = some u)
    (hbad : dictGet bad "description_url" = none) :
    makeTasks (pre ++ Json.obj bad :: post) = .error (.keyError "description_url") := by
  induction pre with
  | nil => simp [makeTasks, hbad]
  | cons s pre ih =>
    obtain ⟨fields, u, rfl, hu⟩ := hpre s (by simp)
    have ih' := ih (fun s hs => hpre s (by simp [hs]))
    simp [makeTasks, hu, ih']

/-- The success path of `process_query` in closed form: when stage 1 hands
back a dict with no `error` key and a non-empty `result` list, every
suggestion yields its `description_url`, and no description fetch raises,
the call returns the stage-1 envelope with `result` replaced by the
positionally enriched suggestions — for any completion order. -/
theorem process_query_success (net : Network) (sched : List Nat) (query : String)
    (R : Dict) (ss : List Json) (ts : List (Dict × Json))
    (h1 : get_suggested_searches net query = .ok R)
    (h2 : dictHasKey R "error" = false)
    (h3 : dictGet R "result" = some (Json.arr ss))
    (h4 : ss ≠ [])
    (h5 : makeTasks ss = .ok ts)
    (h6 : ∀ t ∈ ts, (net.descResponse t.2).completes = true) :
    process_query net sched query
      = .ok (dictSet R "result" (Json.arr (ts.map (enrichedSuggestion net)))) := by
  unfold process_query
  rw [h1]
  have hss : ss.isEmpty = false := by simp [h4]
  have hmap : ts.map (fun t => get_search_description net t.2)
      = ts.map (fun t => .ok (net.descResponse t.2).payload) :=
    List.map_congr_left (fun t ht => get_search_description_of_completes net t.2 (h6 t ht))
  simp only [h2, h3, hss, Option.getD_some, Json.truthy, Bool.not_false, Bool.not_true,
    Bool.false_or, Bool.false_eq_true, if_false, h5, hmap, gather_map_ok, enrichZip_map,
    enrichedSuggestion]
  rfl

/-! ## Claim theorems -/

/-- C1: if stage 1 returns a mapping containing an `error` key, or whose
`result` field is absent or an empty list, `process_query` returns exactly
`{error: "Failed to get initial suggestions.", details: <stage-1 response>}`;
an empty result list is treated identically to an explicit stage-1 error. -/
theorem process_query_gate_on_error_or_empty (net : Network) (sched : List Nat)
    (query : String) (R : Dict)
    (h1 : get_suggested_searches net query = .ok R)
    (h2 : dictHasKey R "error" = true ∨ dictGet R "result" = none ∨
          dictGet R "result" = some (Json.arr [])) :
    process_query net sched query
      = .ok [("error", Json.str "Failed to get initial suggestions."),
             ("details", Json.obj R)] := by
  unfold process_query
  rw [h1]
  have hg : (dictHasKey R "error"
      || !((dictGet R "result").getD Json.null).truthy) = true := by
    rcases h2 with h | h | h <;> simp [h, Json.truthy]
  simp [hg]

/-- Witness for C1 at a concrete empty-result stage-1 response. -/
theorem process_query_gate_on_error_or_empty_witness :
    process_query netGateEmpty [] "patent cases"
      = .ok [("error", Json.str "Failed to get initial suggestions."),
             ("details", Json.obj [("result", Json.arr [])])] :=
  process_query_gate_on_error_or_empty netGateEmpty [] "patent cases"
    [("result", Json.arr [])] rfl (Or.inr (Or.inr rfl))

/-- C2: when stage 1 returns a non-empty `result` list (and the gate passes),
`process_query` returns a result list of the same length, every entry carries
an `enriched_description` key, and the correspondence is positional — entry
`i` is suggestion `i` with the payload fetched from its own
`description_url` — for every completion order of the concurrent fetches. -/
theorem process_query_enriches_positionally (net : Network) (sched : List Nat)
    (query : String) (R : Dict) (ss : List Json) (ts : List (Dict × Json))
    (h1 : get_suggested_searches net query = .ok R)
    (h2 : dictHasKey R "error" = false)
    (h3 : dictGet R "result" = some (Json.arr ss))
    (h4 : ss ≠ [])
    (h5 : makeTasks ss = .ok ts)
    (h6 : ∀ t ∈ ts, (net.descResponse t.2).completes = true)
    (_hsched : sched.Perm (List.range ts.length)) :
    process_query net sched query
      = .ok (dictSet R "result" (Json.arr (ts.map (enrichedSuggestion net))))
    ∧ (ts.map (enrichedSuggestion net)).length = ss.length
    ∧ List.Forall₂
        (fun s t => s = Json.obj t.1 ∧ dictGet t.1 "description_url" = some t.2) ss ts
    ∧ ∀ e ∈ ts.map (enrichedSuggestion net), ∃ fields, e = Json.obj fields ∧
        dictHasKey fields "enriched_description" = true := by
  refine ⟨process_query_success net sched query R ss ts h1 h2 h3 h4 h5 h6, ?_, ?_, ?_⟩
  · rw [List.length_map]
    exact (makeTasks_ok_forall₂ h5).length_eq.symm
  · exact makeTasks_ok_forall₂ h5
  · intro e he
    rw [List.mem_map] at he
    obtain ⟨t, ht, rfl⟩ := he
    exact ⟨_, rfl, dictHasKey_dictSet_self _ _ _⟩

/-- Witness for C2, with the out-of-order completion schedule `[1, 0]`
(the second fetch finishes first). -/
theorem process_query_enriches_positionally_witness :
    process_query netEnrich [1, 0] "patent cases"
      = .ok (dictSet respEnrich "result" (Json.arr (tsEnrich.map (enrichedSuggestion netEnrich)))) :=
  (process_query_enriches_positionally netEnrich [1, 0] "patent cases"
    respEnrich ssEnrich tsEnrich rfl rfl rfl (by simp [ssEnrich]) rfl
    (by
      intro t ht
      simp only [tsEnrich, List.mem_cons, List.not_mem_nil, or_false] at ht
      rcases ht with rfl | rfl <;> rfl)
    (List.Perm.swap 0 1 [])).1

/-- C3: when one description fetch fails with an HTTP status error and the
others return bodies, only that suggestion gets
`enriched_description = {error: str(e)}`; the others receive their real
fetched descriptions, and `process_query` still returns the success-shaped
envelope without raising. -/
theorem process_query_isolates_single_fetch_failure (net : Network) (sched : List Nat)
    (query : String) (R : Dict) (ss : List Json) (ts : List (Dict × Json))
    (j : Nat) (msg : String)
    (h1 : get_suggested_searches net query = .ok R)
    (h2 : dictHasKey R "error" = false)
    (h3 : dictGet R "result" = some (Json.arr ss))
    (h4 : ss ≠ [])
    (h5 : makeTasks ss = .ok ts)
    (hj : j < ts.length)
    (hfail : net.descResponse (ts.getD j ([], Json.null)).2 = .statusError msg)
    (hok : ∀ i, i < ts.length → i ≠ j →
        ∃ b, net.descResponse (ts.getD i ([], Json.null)).2 = .ok b) :
    process_query net sched query
      = .ok (dictSet R "result" (Json.arr (ts.map (enrichedSuggestion net))))
    ∧ (ts.map (enrichedSuggestion net)).getD j Json.null
        = Json.obj (dictSet (ts.getD j ([], Json.null)).1 "enriched_description"
            (Json.obj [("error", Json.str msg)]))
    ∧ ∀ i b, i < ts.length → i ≠ j →
        net.descResponse (ts.getD i ([], Json.null)).2 = .ok b →
        (ts.map (enrichedSuggestion net)).getD i Json.null
          = Json.obj (dictSet (ts.getD i ([], Json.null)).1 "enriched_description"
              (Json.obj b)) := by
  have hgetD : ∀ (i : Nat) (hi : i < ts.length),
      ts.getD i ([], Json.null) = ts.get ⟨i, hi⟩ := by
    intro i hi
    simp [List.getD_eq_getElem?_getD, List.getElem?_eq_getElem hi]
  have hmapD : ∀ (i : Nat) (hi : i < ts.length),
      (ts.map (enrichedSuggestion net)).getD i Json.null
        = enrichedSuggestion net (ts.get ⟨i, hi⟩) := by
    intro i hi
    have hi2 : i < (ts.map (enrichedSuggestion net)).length := by
      rw [List.length_map]; exact hi
    simp [List.getD_eq_getElem?_getD, List.getElem?_eq_getElem hi2]
  have h6 : ∀ t ∈ ts, (net.descResponse t.2).completes = true := by
    intro t ht
    rw [List.mem_iff_get] at ht
    obtain ⟨⟨i, hi⟩, rfl⟩ := ht
    by_cases hij : i = j
    · subst hij
      rw [← hgetD i hi, hfail]
      rfl
    · obtain ⟨b, hb⟩ := hok i hi hij
      rw [← hgetD i hi, hb]
      rfl
  refine ⟨process_query_success net sched query R ss ts h1 h2 h3 h4 h5 h6, ?_, ?_⟩
  · rw [hmapD j hj, enrichedSuggestion, ← hgetD j hj, hfail]
    rfl
  · intro i b hi hij hb
    rw [hmapD i hi, enrichedSuggestion, ← hgetD i hi, hb]
    rfl

/-- Witness for C3: index 1 of 3 fails with a 404; the envelope is still a
success and carries all three enriched suggestions. -/
theorem process_query_isolates_single_fetch_failure_witness :
    process_query netOne404 [2, 0, 1] "patent cases"
      = .ok (dictSet
          [("result", Json.arr
            [Json.obj [("description_url", Json.str "/d1")],
             Json.obj [("description_url", Json.str "/d2")],
             Json.obj [("description_url", Json.str "/d3")]])]
          "result" (Json.arr (tsOne404.map (enrichedSuggestion netOne404)))) :=
  (process_query_isolates_single_fetch_failure netOne404 [2, 0, 1] "patent cases"
    [("result", Json.arr
      [Json.obj [("description_url", Json.str "/d1")],
       Json.obj [("description_url", Json.str "/d2")],
       Json.obj [("description_url", Json.str "/d3")]])]
    [Json.obj [("description_url", Json.str "/d1")],
     Json.obj [("description_url", Json.str "/d2")],
     Json.obj [("description_url", Json.str "/d3")]]
    tsOne404 1 "Client error 404 for url /d2"
    rfl rfl rfl (by simp) rfl (by simp [tsOne404]) rfl
    (by
      intro i hi hij
      have hi3 : i < 3 := by simpa [tsOne404] using hi
      interval_cases i
      · exact ⟨[("text", Json.str "ok /d1")], rfl⟩
      · exact absurd rfl hij
      · exact ⟨[("text", Json.str "ok /d3")], rfl⟩)).1

/-- C4: on the success path the returned value is the stage-1 envelope
itself with only the `result` entry rewritten by the in-place enrichment:
the key order is unchanged and every field other than `result` (the extra
stage-1 metadata) is preserved verbatim. -/
theorem process_query_preserves_stage1_envelope (net : Network) (sched : List Nat)
    (query : String) (R : Dict) (ss : List Json) (ts : List (Dict × Json))
    (h1 : get_suggested_searches net query = .ok R)
    (h2 : dictHasKey R "error" = false)
    (h3 : dictGet R "result" = some (Json.arr ss))
    (h4 : ss ≠ [])
    (h5 : makeTasks ss = .ok ts)
    (h6 : ∀ t ∈ ts, (net.descResponse t.2).completes = true) :
    process_query net sched query
      = .ok (dictSet R "result" (Json.arr (ts.map (enrichedSuggestion net))))
    ∧ dictKeys (dictSet R "result" (Json.arr (ts.map (enrichedSuggestion net)))) = dictKeys R
    ∧ (∀ k, k ≠ "result" →
        dictGet (dictSet R "result" (Json.arr (ts.map (enrichedSuggestion net)))) k
          = dictGet R k)
    ∧ dictGet (dictSet R "result" (Json.arr (ts.map (enrichedSuggestion net)))) "result"
        = some (Json.arr (ts.map (enrichedSuggestion net))) := by
  refine ⟨process_query_success net sched query R ss ts h1 h2 h3 h4 h5 h6, ?_, ?_, ?_⟩
  · exact dictKeys_dictSet R "result" _ (dictHasKey_of_dictGet_some R "result" _ h3)
  · intro k hk
    exact dictGet_dictSet_ne R "result" k _ hk
  · exact dictGet_dictSet_self R "result" _

/-- Witness for C4: the extra `meta` field of the `netEnrich` stage-1
response survives enrichment unchanged. -/
theorem process_query_preserves_stage1_envelope_witness :
    dictGet (dictSet respEnrich "result" (Json.arr (tsEnrich.map (enrichedSuggestion netEnrich))))
        "meta" = dictGet respEnrich "meta"
    ∧ process_query netEnrich [0, 1] "patent cases"
      = .ok (dictSet respEnrich "result" (Json.arr (tsEnrich.map (enrichedSuggestion netEnrich)))) := by
  have h := process_query_preserves_stage1_envelope netEnrich [0, 1] "patent cases"
    respEnrich ssEnrich tsEnrich rfl rfl rfl (by simp [ssEnrich]) rfl
    (by
      intro t ht
      simp only [tsEnrich, List.mem_cons, List.not_mem_nil, or_false] at ht
      rcases ht with rfl | rfl <;> rfl)
  exact ⟨h.2.2.1 "meta" (by decide), h.1⟩

/-- C5 is false on the code: at `netMissingUrl` the whole call raises
`KeyError("description_url")` — no success envelope, nothing enriched. -/
theorem process_query_missing_url_cex :
    process_query netMissingUrl [0, 1] "patent cases"
      = .error (.keyError "description_url") := rfl

/-- C5 as amended: a suggestion without `description_url` raises `KeyError`
out of `process_query` during the eager task-creation loop, before any
fetch is awaited: the whole batch fails and no suggestion is enriched. -/
theorem process_query_missing_description_url_raises (net : Network) (sched : List Nat)
    (query : String) (R : Dict) (pre post : List Json) (bad : Dict)
    (h1 : get_suggested_searches net query = .ok R)
    (h2 : dictHasKey R "error" = false)
    (h3 : dictGet R "result" = some (Json.arr (pre ++ Json.obj bad :: post)))
    (h4 : ∀ s ∈ pre, ∃ fields u, s = Json.obj fields
            ∧ dictGet fields "description_url" = some u)
    (h5 : dictGet bad "description_url" = none) :
    process_query net sched query = .error (.keyError "description_url") := by
  unfold process_query
  rw [h1]
  have hss : (pre ++ Json.obj bad :: post).isEmpty = false := by simp
  simp only [h2, h3, Option.getD_some, Json.truthy, hss, Bool.not_true, Bool.not_false,
    Bool.false_or, Bool.false_eq_true, if_false,
    makeTasks_missing_url pre post bad h4 h5]

/-- Witness for the amended C5 at a concrete input (bad suggestion in the
middle of the list). -/
theorem process_query_missing_description_url_raises_witness :
    process_query netOne404Missing [1, 0, 2] "patent cases"
      = .error (.keyError "description_url") :=
  process_query_missing_description_url_raises netOne404Missing [1, 0, 2] "patent cases"
    [("result", Json.arr
      [Json.obj [("description_url", Json.str "/d1")],
       Json.obj [("title", Json.str "no url")],
       Json.obj [("description_url", Json.str "/d3")]])]
    [Json.obj [("description_url", Json.str "/d1")]]
    [Json.obj [("description_url", Json.str "/d3")]]
    [("title", Json.str "no url")]
    rfl rfl rfl
    (by
      intro s hs
      simp only [List.mem_cons, List.not_mem_nil, or_false] at hs
      subst hs
      exact ⟨_, Json.str "/d1", rfl, rfl⟩)
    rfl

/-- A `process_query` effect never occurs among the network effects of
`build_agent`. -/
theorem process_query_not_mem_buildTraceEffects (cfg : APIAgentConfiguration) (q : String) :
    ExecEffect.process_query q ∉ buildTraceEffects cfg := by
  unfold buildTraceEffects
  split
  · simp
  · split <;> simp

/-- C6 is false on the code: with a valid static-token configuration and a
context whose `task_id` is absent, `execute` calls `build_agent` first and
only then signals invalid parameters — the signal does not precede
credential resolution. -/
theorem execute_builds_agent_before_param_check_cex :
    executeEffects cfgToken tnetDead netUnused [] ctxMissingTask
      = [ExecEffect.build_agent, ExecEffect.invalid_params_error]
    ∧ invalidBeforeBuild (executeEffects cfgToken tnetDead netUnused [] ctxMissingTask)
        = false := ⟨rfl, rfl⟩

/-- C6 as amended: when a required context field is absent and `build_agent`
succeeds, `execute` signals invalid parameters immediately after credential
resolution (including any token exchange) and before any query processing —
`process_query` is never invoked. -/
theorem execute_invalid_params_after_build (cfg : APIAgentConfiguration)
    (tnet : TokenNet) (net : Network) (sched : List Nat) (ctx : RequestContext)
    (a : LexMachinaAPIAgent)
    (hb : cfg.build_agent tnet = .ok a)
    (hm : ctx.task_id = none ∨ ctx.context_id = none ∨ ctx.message = none) :
    executeEffects cfg tnet net sched ctx
      = ExecEffect.build_agent :: (buildTraceEffects cfg ++ [ExecEffect.invalid_params_error])
    ∧ (∀ q, ExecEffect.process_query q ∉ executeEffects cfg tnet net sched ctx)
    ∧ ExecEffect.invalid_params_error ∈ executeEffects cfg tnet net sched ctx := by
  have htr : executeEffects cfg tnet net sched ctx
      = ExecEffect.build_agent ::
          (buildTraceEffects cfg ++ [ExecEffect.invalid_params_error]) := by
    unfold executeEffects
    rw [hb]
    rcases hm with h | h | h <;> simp [h]
  refine ⟨htr, ?_, ?_⟩
  · intro q
    rw [htr]
    have hnb := process_query_not_mem_buildTraceEffects cfg q
    simp [List.mem_cons, List.mem_append, hnb]
  · rw [htr]
    simp

/-- Witness for the amended C6 at the concrete token configuration and a
context missing its `task_id`. -/
theorem execute_invalid_params_after_build_witness :
    executeEffects cfgToken tnetDead netUnused [] ctxMissingTask
      = ExecEffect.build_agent ::
          (buildTraceEffects cfgToken ++ [ExecEffect.invalid_params_error]) :=
  (execute_invalid_params_after_build cfgToken tnetDead netUnused [] ctxMissingTask
    (LexMachinaAPIAgent.init defaultBaseUrl "tok") rfl (Or.inl rfl)).1

/-- C7: with a client-credentials pair configured and no token, `build_agent`
POSTs form-encoded `grant_type=client_credentials`, `client_id` and
`client_secret` to `{base_url}/api/token`; when the response body carries
`access_token` T, resolution succeeds and the constructed client carries
`Authorization: Bearer T` alongside `Accept: application/json`. -/
theorem build_agent_client_credentials_success (env : Env) (tnet : TokenNet)
    (cid cs T : String) (body : Dict)
    (htok : truthyS env.api_token = false)
    (hid : env.client_id = some cid) (hcid : cid ≠ "")
    (hsec : env.client_secret = some cs) (hcs : cs ≠ "")
    (hpost : tnet.post (env.api_base_url.getD defaultBaseUrl ++ "/api/token")
        { grant_type := "client_credentials", client_id := cid, client_secret := cs }
        = .ok body)
    (hat : dictGet body "access_token" = some (Json.str T)) (hT : T ≠ "") :
    resolve env tnet = .ok (LexMachinaAPIAgent.init (env.api_base_url.getD defaultBaseUrl) T)
    ∧ ("Authorization", "Bearer " ++ T)
        ∈ (LexMachinaAPIAgent.init (env.api_base_url.getD defaultBaseUrl) T).headers
    ∧ ("Accept", "application/json")
        ∈ (LexMachinaAPIAgent.init (env.api_base_url.getD defaultBaseUrl) T).headers := by
  refine ⟨?_, by simp [LexMachinaAPIAgent.init], by simp [LexMachinaAPIAgent.init]⟩
  have hinit : APIAgentConfiguration.init env
      = .ok { api_base_url := env.api_base_url.getD defaultBaseUrl, token := env.api_token,
              client_id := some cid, client_secret := some cs,
              delegation_url := env.delegation_url } := by
    unfold APIAgentConfiguration.init
    simp [hid, hsec]
  rw [resolve_eq_build env _ tnet hinit]
  unfold APIAgentConfiguration.build_agent
  have hcid2 := truthyS_some_of_ne cid hcid
  have hcs2 := truthyS_some_of_ne cs hcs
  have hT2 := truthy_str_of_ne T hT
  simp only [htok, Bool.false_eq_true, if_false, hcid2, hcs2, Bool.and_self, if_true,
    Option.getD_some, hpost, hat, hT2, Bool.not_true]
  rfl

/-- Witness for C7 at the concrete client-credentials environment and a
token endpoint answering `{access_token: "fetched_token"}`. -/
theorem build_agent_client_credentials_success_witness :
    resolve envOauth tnetOauth = .ok (LexMachinaAPIAgent.init defaultBaseUrl "fetched_token") :=
  (build_agent_client_credentials_success envOauth tnetOauth "cid" "csecret"
    "fetched_token" [("access_token", Json.str "fetched_token")]
    rfl rfl (by decide) rfl (by decide) rfl rfl (by decide)).1

/-- C8: `CLIENT_ID` set without `CLIENT_SECRET` fails construction with a
required-field error naming exactly `CLIENT_SECRET`, and symmetrically;
the error message carries the missing field name. -/
theorem init_half_pair_names_missing_field (env env2 : Env) (cid cs : String) :
    (env.client_id = some cid → env.client_secret = none →
      APIAgentConfiguration.init env = .error (.requiredConfiguration "CLIENT_SECRET")
      ∧ (AgentError.requiredConfiguration "CLIENT_SECRET").message
          = "Missing required configuration value: CLIENT_SECRET")
    ∧ (env2.client_secret = some cs → env2.client_id = none →
      APIAgentConfiguration.init env2 = .error (.requiredConfiguration "CLIENT_ID")
      ∧ (AgentError.requiredConfiguration "CLIENT_ID").message
          = "Missing required configuration value: CLIENT_ID") := by
  constructor
  · intro hid hsec
    refine ⟨?_, rfl⟩
    unfold APIAgentConfiguration.init
    simp [hid, hsec]
  · intro hsec hid
    refine ⟨?_, rfl⟩
    unfold APIAgentConfiguration.init
    simp [hid, hsec]

/-- Witness for C8 at the two concrete half-pair environments. -/
theorem init_half_pair_names_missing_field_witness :
    APIAgentConfiguration.init envIdOnly
      = .error (.requiredConfiguration "CLIENT_SECRET")
    ∧ APIAgentConfiguration.init envSecretOnly
      = .error (.requiredConfiguration "CLIENT_ID") := by
  have h := init_half_pair_names_missing_field envIdOnly envSecretOnly "cid" "csecret"
  exact ⟨(h.1 rfl rfl).1, (h.2 rfl rfl).1⟩

/-- C9: when delegation is the selected mechanism (no usable token, no
usable client-credentials pair, construction succeeds), resolution always
fails with `NotImplementedError` — a kind outside the `ConfigurationError`
hierarchy and distinct from every configuration-error kind. -/
theorem build_agent_delegation_not_implemented (env : Env) (tnet : TokenNet)
    (du : String)
    (htok : truthyS env.api_token = false)
    (hpair : (truthyS env.client_id && truthyS env.client_secret) = false)
    (hdel : env.delegation_url = some du) (hdu : du ≠ "")
    (hp1 : (env.client_id.isSome && env.client_secret.isNone) = false)
    (hp2 : (env.client_secret.isSome && env.client_id.isNone) = false) :
    resolve env tnet
      = .error (.notImplementedError "Delegation URL authentication not implemented yet.")
    ∧ (AgentError.notImplementedError
        "Delegation URL authentication not implemented yet.").isConfigurationError = false
    ∧ ∀ e : AgentError, e.isConfigurationError = true →
        AgentError.notImplementedError "Delegation URL authentication not implemented yet."
          ≠ e := by
  refine ⟨?_, rfl, ?_⟩
  · have hp1p : ¬(env.client_id.isSome = true ∧ env.client_secret = none) := by
      rintro ⟨h1, h2⟩
      rw [h2] at hp1
      simp [h1] at hp1
    have hp2p : ¬(env.client_secret.isSome = true ∧ env.client_id = none) := by
      rintro ⟨h1, h2⟩
      rw [h2] at hp2
      simp [h1] at hp2
    have hinit : APIAgentConfiguration.init env
        = .ok { api_base_url := env.api_base_url.getD defaultBaseUrl, token := env.api_token,
                client_id := env.client_id, client_secret := env.client_secret,
                delegation_url := some du } := by
      unfold APIAgentConfiguration.init
      simp [hdel, hp1p, hp2p]
    rw [resolve_eq_build env _ tnet hinit]
    unfold APIAgentConfiguration.build_agent
    have hpairp : ¬(truthyS env.client_id = true ∧ truthyS env.client_secret = true) := by
      rw [← Bool.and_eq_true]
      simp [hpair]
    have hdu2 := truthyS_some_of_ne du hdu
    simp [htok, hpairp, hdu2]
  · intro e he hne
    rw [← hne] at he
    simp [AgentError.isConfigurationError] at he

/-- Witness for C9 at the delegation-only environment. -/
theorem build_agent_delegation_not_implemented_witness :
    resolve envDelegation tnetDead
      = .error (.notImplementedError "Delegation URL authentication not implemented yet.") :=
  (build_agent_delegation_not_implemented envDelegation tnetDead "https://delegate.example"
    rfl rfl rfl (by decide) rfl rfl).1

/-- C10: `API_TOKEN=""` with the other three variables unset passes
construction (the all-missing check compares to `None`, not emptiness), and
`build_agent` then falls through every selection branch to the generic
`ConfigurationError` of the branch commented `This should not happen` —
that branch is reachable through the public interface. -/
theorem empty_api_token_reaches_unreachable_branch :
    APIAgentConfiguration.init envEmptyToken = .ok cfgEmptyToken
    ∧ ∀ tnet : TokenNet, resolve envEmptyToken tnet = .error .configurationError :=
  ⟨rfl, fun _ => rfl⟩

end LexMachina
